import Mathlib

/-!
Shallow embedding of `sciencesource.go` (package main of ScienceSourceIngest).

The Go file defines three record kinds — `ScienceSourceAnnotation`,
`ScienceSourceAnchorPoint`, `ScienceSourceArticle` — serialised to JSON via
`encoding/json` with the struct tags shown in the source, plus:

* `getValuesForTags`: reflects over the three record schemas collecting the
  distinct values of a given struct tag ("property" or "item");
* `GetPropertyAndItemConfigurationFromServer`: resolves every property label
  and every item label through the remote client, filling the client's
  `PropertyMap` and `ItemMap` in place, aborting on the first lookup error;
* `UploadPaper`: reads a local file, creates the remote article, records the
  returned page id on the article;
* `Save` / `LoadScienceSourceArticle`: JSON persistence of the article graph.

External effects (remote lookups, file system) are modelled as explicit
oracle functions; Go's `error` values are modelled as `String`s carried in
`Except`/`Option`.  Go map iteration order is unspecified, so loops that
iterate maps are modelled over explicit lists and theorems generalise over
the list where the order could matter.
-/

/-- A JSON value, as produced by Go's `encoding/json` for the record types of
the source (objects keep the field order of the struct declaration). -/
inductive JValue where
  | str : String → JValue
  | num : Int → JValue
  | arr : List JValue → JValue
  | obj : List (String × JValue) → JValue
  | null : JValue

/-- Go's `type ItemType string`. -/
abbrev ItemType := String

/-- `ScienceSourceAnnotation` from the source, with every field. -/
structure ScienceSourceAnnotation where
  Item : ItemType
  TermFound : String
  LengthOfTermFound : Int
  WikiDataItemCode : String
  DictionaryName : String
  TimeCode : String
  InstanceOf : String
  ScienceSourceItemID : String
deriving DecidableEq, Repr, Inhabited

/-- First value stored under key `k` in a JSON object (the encoder below
never emits a duplicate key, matching `encoding/json` on these structs). -/
def getField (kvs : List (String × JValue)) (k : String) : Option JValue :=
  match kvs with
  | [] => none
  | (k', v) :: rest => if k' = k then some v else getField rest k

/-- Decode a string field the way `encoding/json` does: an absent key or a
JSON `null` leaves the field at its zero value `""`; a value of any other
kind than a string is a decode error. -/
def decStr (kvs : List (String × JValue)) (k : String) : Except String String :=
  match getField kvs k with
  | none => .ok ""
  | some (.str s) => .ok s
  | some .null => .ok ""
  | some _ => .error ("cannot unmarshal into string field " ++ k)

/-- Decode an integer field; absent key or `null` gives the zero value `0`. -/
def decInt (kvs : List (String × JValue)) (k : String) : Except String Int :=
  match getField kvs k with
  | none => .ok 0
  | some (.num n) => .ok n
  | some .null => .ok 0
  | some _ => .error ("cannot unmarshal into int field " ++ k)

/-- JSON encoding of a `ScienceSourceAnnotation`: keys come from the `json:`
struct tags; the `Item` field has no `json:` tag so `encoding/json` uses the
field name itself. -/
def encodeAnnot (a : ScienceSourceAnnotation ) : JValue :=
  .obj [("Item", .str a.Item),
        ("term", .str a.TermFound),
        ("length", .num a.LengthOfTermFound),
        ("wikidata", .str a.WikiDataItemCode),
        ("dictionary", .str a.DictionaryName),
        ("time", .str a.TimeCode),
        ("instance_of", .str a.InstanceOf),
        ("id", .str a.ScienceSourceItemID)]

/-- JSON decoding of a `ScienceSourceAnnotation`. -/
def decodeAnnot (j : JValue) : Except String ScienceSourceAnnotation :=
  match j with
  | .obj kvs => do
    let item ← decStr kvs "Item"
    let term ← decStr kvs "term"
    let length ← decInt kvs "length"
    let wikidata ← decStr kvs "wikidata"
    let dictionary ← decStr kvs "dictionary"
    let time ← decStr kvs "time"
    let instanceOf ← decStr kvs "instance_of"
    let id ← decStr kvs "id"
    .ok ⟨item, term, length, wikidata, dictionary, time, instanceOf, id⟩
  | _ => .error "cannot unmarshal into ScienceSourceAnnotation"

theorem decodeAnnot_encodeAnnot (a : ScienceSourceAnnotation ) :
    decodeAnnot (encodeAnnot a) = .ok a := by
  simp only [decodeAnnot, encodeAnnot, decStr, decInt, getField]
  rfl

/-- `ScienceSourceAnchorPoint` from the source, with every field, including
the owned `Annotation` record. -/
structure ScienceSourceAnchorPoint where
  Item : ItemType
  PrecedingPhrase : String
  FollowingPhrase : String
  DistanceToPreceding : Int
  DistanceToFollowing : Int
  CharacterNumber : Int
  TimeCode : String
  InstanceOf : String
  ScienceSourceArticleTitle : String
  AnchorPoint : String
  PrecedingAnchorPoint : String
  FollowingAnchorPoint : String
  Anchors : String
  ScienceSourceItemID : String
  Annotation : ScienceSourceAnnotation
deriving DecidableEq, Repr, Inhabited

/-- JSON encoding of a `ScienceSourceAnchorPoint`, keys from the `json:`
struct tags, in declaration order. -/
def encodeAnchor (p : ScienceSourceAnchorPoint) : JValue :=
  .obj [("Item", .str p.Item),
        ("preceding_phrase", .str p.PrecedingPhrase),
        ("following_phrase", .str p.FollowingPhrase),
        ("preceding_distance", .num p.DistanceToPreceding),
        ("following_distance", .num p.DistanceToFollowing),
        ("character", .num p.CharacterNumber),
        ("time", .str p.TimeCode),
        ("instance_of", .str p.InstanceOf),
        ("science_source_title", .str p.ScienceSourceArticleTitle),
        ("point", .str p.AnchorPoint),
        ("preceding_anchor", .str p.PrecedingAnchorPoint),
        ("following_anchor", .str p.FollowingAnchorPoint),
        ("anchors", .str p.Anchors),
        ("id", .str p.ScienceSourceItemID),
        ("annotation", encodeAnnot ( ScienceSourceAnchorPoint.Annotation p))]

/-- Decode a nested one-record field (absent key leaves the zero record, as
`encoding/json` leaves the field's zero value in place). -/
def decAnnotField (kvs : List (String × JValue)) (k : String) :
    Except String ScienceSourceAnnotation :=
  match getField kvs k with
  | none => .ok default
  | some .null => .ok default
  | some j => decodeAnnot j

/-- JSON decoding of a `ScienceSourceAnchorPoint`. -/
def decodeAnchor (j : JValue) : Except String ScienceSourceAnchorPoint :=
  match j with
  | .obj kvs => do
    let item ← decStr kvs "Item"
    let precedingPhrase ← decStr kvs "preceding_phrase"
    let followingPhrase ← decStr kvs "following_phrase"
    let distanceToPreceding ← decInt kvs "preceding_distance"
    let distanceToFollowing ← decInt kvs "following_distance"
    let characterNumber ← decInt kvs "character"
    let time ← decStr kvs "time"
    let instanceOf ← decStr kvs "instance_of"
    let ssTitle ← decStr kvs "science_source_title"
    let point ← decStr kvs "point"
    let precedingAnchor ← decStr kvs "preceding_anchor"
    let followingAnchor ← decStr kvs "following_anchor"
    let anchors ← decStr kvs "anchors"
    let id ← decStr kvs "id"
    let annot ← decAnnotField kvs "annotation"
    .ok ⟨item, precedingPhrase, followingPhrase, distanceToPreceding,
         distanceToFollowing, characterNumber, time, instanceOf, ssTitle,
         point, precedingAnchor, followingAnchor, anchors, id, annot⟩
  | _ => .error "cannot unmarshal into ScienceSourceAnchorPoint"

theorem decodeAnchor_encodeAnchor (p : ScienceSourceAnchorPoint) :
    decodeAnchor (encodeAnchor p) = .ok p := by
  simp only [decodeAnchor, encodeAnchor, decStr, decInt, decAnnotField, getField,
    decodeAnnot_encodeAnnot]
  rfl

/-- `ScienceSourceArticle` from the source, with every field; the ordered
anchor-point sequence is the Go slice field `Annotations`. -/
structure ScienceSourceArticle where
  Item : ItemType
  WikiDataItemCode : String
  ArticleTextTitle : String
  PublicationDate : String
  TimeCode : String
  CharacterNumber : Int
  PrecedingPhrase : String
  FollowingPhrase : String
  InstanceOf : String
  ScienceSourceArticleTitle : String
  PageID : Int
  FollowingAnchorPoint : String
  Annotations : List ScienceSourceAnchorPoint
deriving DecidableEq, Repr, Inhabited

/-- JSON encoding of a `ScienceSourceArticle`, keys from the `json:` struct
tags, in declaration order; the anchor-point slice becomes a JSON array in
slice order. -/
def encodeArticle (a : ScienceSourceArticle) : JValue :=
  .obj [("Item", .str a.Item),
        ("wikidata", .str a.WikiDataItemCode),
        ("title", .str a.ArticleTextTitle),
        ("publication_date", .str a.PublicationDate),
        ("time", .str a.TimeCode),
        ("character", .num a.CharacterNumber),
        ("preceding_phrase", .str a.PrecedingPhrase),
        ("following_phrase", .str a.FollowingPhrase),
        ("instance_of", .str a.InstanceOf),
        ("science_source_title", .str a.ScienceSourceArticleTitle),
        ("page_id", .num a.PageID),
        ("following_anchor", .str a.FollowingAnchorPoint),
        ("annotations", .arr (a.Annotations.map encodeAnchor))]

/-- Element-wise decoding of a JSON array of anchor points, in array order. -/
def decAnchors : List JValue → Except String (List ScienceSourceAnchorPoint)
  | [] => .ok []
  | j :: js => do
    let p ← decodeAnchor j
    let ps ← decAnchors js
    .ok (p :: ps)

/-- Decode the anchor-point array field; absent key or `null` gives the zero
value (Go's nil slice, the empty sequence). -/
def decAnchorList (kvs : List (String × JValue)) (k : String) :
    Except String (List ScienceSourceAnchorPoint) :=
  match getField kvs k with
  | none => .ok []
  | some .null => .ok []
  | some (.arr xs) => decAnchors xs
  | some _ => .error ("cannot unmarshal into slice field " ++ k)

/-- JSON decoding of a `ScienceSourceArticle`. -/
def decodeArticle (j : JValue) : Except String ScienceSourceArticle :=
  match j with
  | .obj kvs => do
    let item ← decStr kvs "Item"
    let wikidata ← decStr kvs "wikidata"
    let title ← decStr kvs "title"
    let publicationDate ← decStr kvs "publication_date"
    let time ← decStr kvs "time"
    let characterNumber ← decInt kvs "character"
    let precedingPhrase ← decStr kvs "preceding_phrase"
    let followingPhrase ← decStr kvs "following_phrase"
    let instanceOf ← decStr kvs "instance_of"
    let ssTitle ← decStr kvs "science_source_title"
    let pageId ← decInt kvs "page_id"
    let followingAnchor ← decStr kvs "following_anchor"
    let anns ← decAnchorList kvs "annotations"
    .ok ⟨item, wikidata, title, publicationDate, time, characterNumber,
         precedingPhrase, followingPhrase, instanceOf, ssTitle, pageId,
         followingAnchor, anns⟩
  | _ => .error "cannot unmarshal into ScienceSourceArticle"

theorem decAnchors_map_encodeAnchor (l : List ScienceSourceAnchorPoint) :
    decAnchors (l.map encodeAnchor) = .ok l := by
  induction l with
  | nil => rfl
  | cons p ps ih =>
    simp only [List.map_cons, decAnchors, decodeAnchor_encodeAnchor, ih]
    rfl

theorem decodeArticle_encodeArticle (a : ScienceSourceArticle) :
    decodeArticle (encodeArticle a) = .ok a := by
  simp only [decodeArticle, encodeArticle, decStr, decInt, decAnchorList, getField,
    decAnchors_map_encodeAnchor, reduceIte, String.reduceEq]
  rfl

/-! ## Persistence: `Save` and `LoadScienceSourceArticle`

The local filesystem is modelled as a map from names to the JSON document
stored there (`none`: the name holds no well-formed JSON document), together
with oracles giving the I/O error, if any, that `os.Create`, `os.Open` and
the encoder's write report for a name. -/

structure FileSystem where
  files : String → Option JValue
  createErr : String → Option String
  openErr : String → Option String
  writeErr : String → Option String

/-- `(article *ScienceSourceArticle) Save(filename string) error` from the
source: `os.Create`, then `json.NewEncoder(f).Encode(article)`.  The result
carries the filesystem after the call, the article the pointer still refers
to (the function never assigns to it), and the returned `error`.  When the
encoder's write fails part-way, `os.Create` has already truncated the file,
so the name no longer holds a well-formed JSON document. -/
def Save (fs : FileSystem) (article : ScienceSourceArticle) (filename : String) :
    FileSystem × ScienceSourceArticle × Option String :=
  match fs.createErr filename with
  | some err => (fs, article, some err)
  | none =>
    match fs.writeErr filename with
    | some e =>
      ({ fs with files := fun n => if n = filename then none else fs.files n },
       article, some e)
    | none =>
      ({ fs with
          files := fun n => if n = filename then some (encodeArticle article) else fs.files n },
       article, none)

/-- `LoadScienceSourceArticle(filename string) (*ScienceSourceArticle, error)`
from the source: `os.Open`, then decode.  When `os.Open` fails the Go code
returns `(nil, err)`; this is the `.error` case, carrying no article. -/
def LoadScienceSourceArticle (fs : FileSystem) (filename : String) :
    Except String ScienceSourceArticle :=
  match fs.openErr filename with
  | some err => .error err
  | none =>
    match fs.files filename with
    | none => .error "invalid JSON document"
    | some j => decodeArticle j

/-- **C1.** Saving an Article graph to a file and loading that file back
(with the underlying file I/O succeeding) returns `nil` from `Save` and
reproduces the very same graph: every field of every record, the order of
the AnchorPoint sequence, and all remote-id fields are preserved. -/
theorem save_load_roundtrip (fs : FileSystem) (article : ScienceSourceArticle)
    (filename : String)
    (hc : fs.createErr filename = none) (hw : fs.writeErr filename = none)
    (ho : fs.openErr filename = none) :
    (Save fs article filename).2.2 = none ∧
    LoadScienceSourceArticle (Save fs article filename).1 filename = .ok article := by
  simp [Save, LoadScienceSourceArticle, hc, hw, ho, decodeArticle_encodeArticle]

/-- A concrete annotation used by the witnesses below. -/
def sampleAnnot : ScienceSourceAnnotation :=
  ⟨"annotation", "malaria", 7, "Q12156", "disease-dict", "2018-11-01", "term", "QA1"⟩

/-- A concrete anchor point used by the witnesses below. -/
def sampleAnchor1 : ScienceSourceAnchorPoint :=
  ⟨"anchor point", "pre", "post", 3, 5, 120, "2018-11-01", "anchor", "Title",
   "QART", "", "", "QA1", "QP1", sampleAnnot⟩

/-- A second concrete anchor point used by the witnesses below. -/
def sampleAnchor2 : ScienceSourceAnchorPoint :=
  ⟨"anchor point", "pre2", "post2", 5, 0, 240, "2018-11-01", "anchor", "Title",
   "QART", "", "", "QA1", "QP2", sampleAnnot⟩

/-- A concrete article staged part-way through upload (`PageID` assigned,
terminus reference not yet set), with two anchor points. -/
def sampleArticle : ScienceSourceArticle :=
  ⟨"article", "Q123", "A paper", "2018-01-01", "2018-11-01", 0, "", "",
   "article", "Title", 4711, "", [sampleAnchor1, sampleAnchor2]⟩

/-- A concrete article with an empty AnchorPoint sequence. -/
def sampleEmptyArticle : ScienceSourceArticle :=
  ⟨"article", "", "", "", "", 0, "", "", "", "", 0, "", []⟩

/-- A filesystem on which every I/O operation succeeds. -/
def fsAllOk : FileSystem :=
  ⟨fun _ => none, fun _ => none, fun _ => none, fun _ => none⟩

/-- A filesystem on which `os.Create` and `os.Open` fail for every name. -/
def fsAllFail : FileSystem :=
  ⟨fun _ => none, fun _ => some "disk quota exceeded",
   fun _ => some "disk quota exceeded", fun _ => none⟩

/-- Witness for C1 at a concrete graph: an article staged part-way through
upload (`PageID` set, terminus not yet set) with two anchor points, and a
second article with an empty AnchorPoint sequence, both round-trip. -/
theorem save_load_roundtrip_witness :
    LoadScienceSourceArticle (Save fsAllOk sampleArticle "a.json").1 "a.json" =
      .ok sampleArticle ∧
    LoadScienceSourceArticle (Save fsAllOk sampleEmptyArticle "b.json").1 "b.json" =
      .ok sampleEmptyArticle :=
  ⟨(save_load_roundtrip fsAllOk sampleArticle "a.json" rfl rfl rfl).2,
   (save_load_roundtrip fsAllOk sampleEmptyArticle "b.json" rfl rfl rfl).2⟩

/-- **C8.** A persistence I/O failure surfaces as a non-nil error and never
corrupts the in-memory graph: `Save` hands back the `os.Create` error and the
article it was given, unmodified (indeed the article is returned unmodified
whatever happens), and `LoadScienceSourceArticle` on a file that cannot be
opened returns the `os.Open` error and no article. -/
theorem persistence_io_failure (fs : FileSystem) (article : ScienceSourceArticle)
    (filename : String) (e : String) :
    ((Save fs article filename).2.1 = article) ∧
    (fs.createErr filename = some e →
      Save fs article filename = (fs, article, some e)) ∧
    (fs.createErr filename = none → fs.writeErr filename = some e →
      (Save fs article filename).2.2 = some e) ∧
    (fs.openErr filename = some e →
      LoadScienceSourceArticle fs filename = .error e) := by
  refine ⟨?_, ?_, ?_, ?_⟩
  · unfold Save
    cases h : fs.createErr filename with
    | none =>
      cases hw : fs.writeErr filename <;> simp [h, hw]
    | some err => simp [h]
  · intro h; simp [Save, h]
  · intro h hw; simp [Save, h, hw]
  · intro h; simp [LoadScienceSourceArticle, h]

/-- Witness for C8 at a concrete filesystem whose create and open both fail
with error "disk quota exceeded" on the name "a.json". -/
theorem persistence_io_failure_witness :
    Save fsAllFail sampleArticle "a.json" =
      (fsAllFail, sampleArticle, some "disk quota exceeded") ∧
    LoadScienceSourceArticle fsAllFail "a.json" = .error "disk quota exceeded" :=
  ⟨(persistence_io_failure fsAllFail sampleArticle "a.json" "disk quota exceeded").2.1 rfl,
   (persistence_io_failure fsAllFail sampleArticle "a.json" "disk quota exceeded").2.2.2 rfl⟩

/-! ## Tag registry: `getValuesForTags`

The Go function reflects over the three struct types, reading the struct tag
named `tagname` off every field and collecting the non-empty values into a
set (`map[string]bool`), which it then flattens to a list.  The reflection
data is embedded below as one `FieldSpec` per struct field, transcribing the
tag string of the source verbatim.  A Go map has no duplicate keys and its
iteration order is unspecified; the set is modelled as an insertion-ordered
duplicate-free list, so theorems about membership and duplicate-freedom hold
for every iteration order. -/

/-- One struct field: its name and its struct-tag key/value pairs. -/
structure FieldSpec where
  name : String
  tags : List (String × String)

/-- `reflect.StructTag.Get`: the value stored under tag key `t`, or `""`
when the field does not carry that tag. -/
def tagGet (tags : List (String × String)) (t : String) : String :=
  match tags with
  | [] => ""
  | (k, v) :: rest => if k = t then v else tagGet rest t

/-- The fields of `ScienceSourceAnnotation` with their struct tags. -/
def annotationFields : List FieldSpec :=
  [⟨"Item", [("item", "annotation")]⟩,
   ⟨"TermFound", [("json", "term"), ("property", "term found")]⟩,
   ⟨"LengthOfTermFound", [("json", "length"), ("property", "length of term found")]⟩,
   ⟨"WikiDataItemCode", [("json", "wikidata"), ("property", "Wikidata item code")]⟩,
   ⟨"DictionaryName", [("json", "dictionary"), ("property", "dictionary name")]⟩,
   ⟨"TimeCode", [("json", "time"), ("property", "time code1")]⟩,
   ⟨"InstanceOf", [("json", "instance_of"), ("property", "instance of")]⟩,
   ⟨"ScienceSourceItemID", [("json", "id")]⟩]

/-- The fields of `ScienceSourceAnchorPoint` with their struct tags. -/
def anchorPointFields : List FieldSpec :=
  [⟨"Item", [("item", "anchor point")]⟩,
   ⟨"PrecedingPhrase", [("json", "preceding_phrase"), ("property", "preceding phrase")]⟩,
   ⟨"FollowingPhrase", [("json", "following_phrase"), ("property", "following phrase")]⟩,
   ⟨"DistanceToPreceding", [("json", "preceding_distance"), ("property", "distance to preceding")]⟩,
   ⟨"DistanceToFollowing", [("json", "following_distance"), ("property", "distance to following")]⟩,
   ⟨"CharacterNumber", [("json", "character"), ("property", "character number")]⟩,
   ⟨"TimeCode", [("json", "time"), ("property", "time code1")]⟩,
   ⟨"InstanceOf", [("json", "instance_of"), ("property", "instance of")]⟩,
   ⟨"ScienceSourceArticleTitle", [("json", "science_source_title"), ("property", "ScienceSource article title")]⟩,
   ⟨"AnchorPoint", [("json", "point"), ("property", "anchor point in")]⟩,
   ⟨"PrecedingAnchorPoint", [("json", "preceding_anchor"), ("property", "preceding anchor point")]⟩,
   ⟨"FollowingAnchorPoint", [("json", "following_anchor"), ("property", "following anchor point")]⟩,
   ⟨"Anchors", [("json", "anchors"), ("property", "anchors")]⟩,
   ⟨"ScienceSourceItemID", [("json", "id")]⟩,
   ⟨"Annotation", [("json", "annotation")]⟩]

/-- The fields of `ScienceSourceArticle` with their struct tags. -/
def articleFields : List FieldSpec :=
  [⟨"Item", [("item", "article")]⟩,
   ⟨"WikiDataItemCode", [("json", "wikidata"), ("property", "Wikidata item code")]⟩,
   ⟨"ArticleTextTitle", [("json", "title"), ("property", "article text title")]⟩,
   ⟨"PublicationDate", [("json", "publication_date"), ("property", "publication date")]⟩,
   ⟨"TimeCode", [("json", "time"), ("property", "time code1")]⟩,
   ⟨"CharacterNumber", [("json", "character"), ("property", "character number")]⟩,
   ⟨"PrecedingPhrase", [("json", "preceding_phrase"), ("property", "preceding phrase")]⟩,
   ⟨"FollowingPhrase", [("json", "following_phrase"), ("property", "following phrase")]⟩,
   ⟨"InstanceOf", [("json", "instance_of"), ("property", "instance of")]⟩,
   ⟨"ScienceSourceArticleTitle", [("json", "science_source_title"), ("property", "ScienceSource article title")]⟩,
   ⟨"PageID", [("json", "page_id"), ("property", "page ID")]⟩,
   ⟨"FollowingAnchorPoint", [("json", "following_anchor"), ("property", "following anchor point")]⟩,
   ⟨"Annotations", [("json", "annotations")]⟩]

/-- Insertion into the tag set (`tagset[tag] = true`): a Go map never holds
a key twice, so inserting a present key is a no-op for the key set. -/
def setInsert (s : List String) (x : String) : List String :=
  if x ∈ s then s else s ++ [x]

/-- Processing one struct field of the reflection loop: read the requested
tag off the field and add it to the set when non-empty (`len(tag) > 0`). -/
def addFieldTag (tagname : String) (acc : List String) (f : FieldSpec) : List String :=
  if 0 < (tagGet f.tags tagname).length then setInsert acc (tagGet f.tags tagname)
  else acc

/-- The nested reflection loops of `getValuesForTags`, generalised over the
list of record schemas being inspected. -/
def getValuesForTagsOver (schemas : List (List FieldSpec)) (tagname : String) :
    List String :=
  schemas.foldl (fun acc fields => fields.foldl (addFieldTag tagname) acc) []

/-- `getValuesForTags` from the source: it always inspects exactly the three
record schemas, in the order annotation, anchor point, article. -/
def getValuesForTags (tagname : String) : List String :=
  getValuesForTagsOver [annotationFields, anchorPointFields, articleFields] tagname

theorem mem_setInsert (s : List String) (x y : String) :
    y ∈ setInsert s x ↔ y ∈ s ∨ y = x := by
  unfold setInsert
  split
  · constructor
    · exact fun h => Or.inl h
    · rintro (h | rfl)
      · exact h
      · assumption
  · simp [List.mem_append]

theorem setInsert_nodup (s : List String) (x : String) (h : s.Nodup) :
    (setInsert s x).Nodup := by
  unfold setInsert
  split
  · exact h
  · rename_i hx
    simp [List.nodup_append, h, hx]

theorem addFieldTag_nodup (t : String) (acc : List String) (f : FieldSpec)
    (h : acc.Nodup) : (addFieldTag t acc f).Nodup := by
  unfold addFieldTag
  split
  · exact setInsert_nodup _ _ h
  · exact h

theorem mem_addFieldTag (t : String) (acc : List String) (f : FieldSpec)
    (x : String) (h : x ∈ addFieldTag t acc f) : x ∈ acc ∨ 0 < x.length := by
  unfold addFieldTag at h
  split at h
  · rcases (mem_setInsert _ _ _).1 h with h' | rfl
    · exact Or.inl h'
    · right; assumption
  · exact Or.inl h

theorem foldl_addFieldTag_nodup (t : String) (fields : List FieldSpec)
    (acc : List String) (h : acc.Nodup) :
    (fields.foldl (addFieldTag t) acc).Nodup := by
  induction fields generalizing acc with
  | nil => exact h
  | cons f fs ih => exact ih _ (addFieldTag_nodup t acc f h)

theorem mem_foldl_addFieldTag (t : String) (fields : List FieldSpec)
    (acc : List String) (x : String) (h : x ∈ fields.foldl (addFieldTag t) acc) :
    x ∈ acc ∨ 0 < x.length := by
  induction fields generalizing acc with
  | nil => exact Or.inl h
  | cons f fs ih =>
    rcases ih _ h with h' | h'
    · exact mem_addFieldTag t acc f x h'
    · exact Or.inr h'

theorem foldl_addFieldTag_untagged (t : String) (fields : List FieldSpec)
    (acc : List String) (h : ∀ f ∈ fields, (tagGet f.tags t).length = 0) :
    fields.foldl (addFieldTag t) acc = acc := by
  induction fields generalizing acc with
  | nil => rfl
  | cons f fs ih =>
    have hf := h f (List.mem_cons_self f fs)
    have step : addFieldTag t acc f = acc := by
      unfold addFieldTag
      split
      · omega
      · rfl
    rw [List.foldl_cons, step]
    exact ih _ (fun g hg => h g (List.mem_cons_of_mem f hg))

theorem foldl_schemas_nodup (t : String) (schemas : List (List FieldSpec))
    (acc : List String) (h : acc.Nodup) :
    (schemas.foldl (fun acc fields => fields.foldl (addFieldTag t) acc) acc).Nodup := by
  induction schemas generalizing acc with
  | nil => exact h
  | cons fields rest ih => exact ih _ (foldl_addFieldTag_nodup t fields acc h)

theorem mem_foldl_schemas (t : String) (schemas : List (List FieldSpec))
    (acc : List String) (x : String)
    (h : x ∈ schemas.foldl (fun acc fields => fields.foldl (addFieldTag t) acc) acc) :
    x ∈ acc ∨ 0 < x.length := by
  induction schemas generalizing acc with
  | nil => exact Or.inl h
  | cons fields rest ih =>
    rcases ih _ h with h' | h'
    · exact mem_foldl_addFieldTag t fields acc x h'
    · exact Or.inr h'

/-- **C4.** For every tag role name the list produced by the registry holds
no duplicate labels, even though several fields and record kinds declare the
same label; and a schema set none of whose fields carries the requested tag
yields the empty list, not a failure. -/
theorem getValuesForTags_nodup_and_empty :
    (∀ tagname : String, (getValuesForTags tagname).Nodup) ∧
    (∀ (schemas : List (List FieldSpec)) (tagname : String),
      (∀ fields ∈ schemas, ∀ f ∈ fields, (tagGet f.tags tagname).length = 0) →
      getValuesForTagsOver schemas tagname = []) := by
  constructor
  · intro tagname
    exact foldl_schemas_nodup tagname _ [] List.nodup_nil
  · intro schemas tagname h
    unfold getValuesForTagsOver
    induction schemas with
    | nil => rfl
    | cons fields rest ih =>
      rw [List.foldl_cons,
          foldl_addFieldTag_untagged tagname fields []
            (h fields (List.mem_cons_self fields rest))]
      exact ih (fun g hg => h g (List.mem_cons_of_mem fields hg))

/-- Witness for C4: the two tag roles used by the source are duplicate-free,
and a role for which no field of the annotation schema declares a tag gives
the empty list. -/
theorem getValuesForTags_nodup_and_empty_witness :
    (getValuesForTags "property").Nodup ∧ (getValuesForTags "item").Nodup ∧
    getValuesForTagsOver [annotationFields] "flavour" = [] :=
  ⟨getValuesForTags_nodup_and_empty.1 "property",
   getValuesForTags_nodup_and_empty.1 "item",
   getValuesForTags_nodup_and_empty.2 [annotationFields] "flavour" (by decide)⟩

/-- **C9.** Every label the registry emits is non-empty: a field that lacks
the requested tag makes `reflect.StructTag.Get` return `""`, and the
`len(tag) > 0` guard keeps it out of the output, so the label resolver only
ever receives non-empty labels. -/
theorem getValuesForTags_values_nonempty :
    ∀ tagname : String, ∀ s ∈ getValuesForTags tagname, s ≠ "" := by
  intro tagname s hs hempty
  rcases mem_foldl_schemas tagname _ [] s hs with h | h
  · simp at h
  · rw [hempty] at h
    exact absurd h (by decide)

set_option maxRecDepth 4000 in
/-- Witness for C9: the label "term found" is among the property labels, and
the theorem shows it non-empty. -/
theorem getValuesForTags_values_nonempty_witness : "term found" ≠ "" :=
  getValuesForTags_values_nonempty "property" "term found" (by decide)

/-! ## Label resolver: `GetPropertyAndItemConfigurationFromServer`

The remote client's `GetPropertyForLabel` / `GetItemForLabel` calls are
modelled as oracle functions `String → Except String String`; the Go method
mutates the client's maps in place, so the model returns the client state
after the call, together with the labels each loop actually looked up and
the returned `error`. -/

/-- Go map assignment `m[k] = v`: replace the value of a present key,
otherwise add the key. -/
def mapInsert (m : List (String × String)) (k v : String) :
    List (String × String) :=
  match m with
  | [] => [(k, v)]
  | (k', v') :: rest => if k' = k then (k, v) :: rest else (k', v') :: mapInsert rest k v

/-- Go map read `m[k]`. -/
def mapLookup (m : List (String × String)) (k : String) : Option String :=
  match m with
  | [] => none
  | (k', v) :: rest => if k' = k then some v else mapLookup rest k

/-- The two label maps of `ScienceSourceClient` (the embedded network client
is passed separately as the lookup oracles). -/
structure ScienceSourceClient where
  PropertyMap : List (String × String)
  ItemMap : List (String × String)
deriving DecidableEq, Repr

/-- `NewScienceSourceClient`: both maps start empty. -/
def NewScienceSourceClient : ScienceSourceClient := ⟨[], []⟩

/-- Result of one resolution loop: the map after the loop, the labels the
loop actually sent to the remote client (in order), and the error returned
from the loop, if any. -/
structure ResolveOutcome where
  map : List (String × String)
  attempted : List String
  err : Option String
deriving DecidableEq, Repr

/-- One `for _, i := range list` loop of
`GetPropertyAndItemConfigurationFromServer`: look each label up, store the
resolved id under the label, return the first lookup error. -/
def resolveTags (lookup : String → Except String String) :
    List String → List (String × String) → ResolveOutcome
  | [], m => ⟨m, [], none⟩
  | l :: ls, m =>
    match lookup l with
    | .error e => ⟨m, [l], some e⟩
    | .ok v =>
      let r := resolveTags lookup ls (mapInsert m l v)
      ⟨r.map, l :: r.attempted, r.err⟩

/-- Outcome of `GetPropertyAndItemConfigurationFromServer`: client state
after the call, the property and item labels actually looked up, and the
returned `error`. -/
structure ConfigOutcome where
  client : ScienceSourceClient
  propAttempted : List String
  itemAttempted : List String
  err : Option String
deriving DecidableEq, Repr

/-- The body of `GetPropertyAndItemConfigurationFromServer`, generalised
over the two label lists (whose order, coming from Go map iteration, is
unspecified): resolve all property labels into `PropertyMap`, returning the
first error at once; then resolve all item labels into `ItemMap` the same
way; return `nil` on success. -/
def getConfigFromLabels (plook ilook : String → Except String String)
    (plabels ilabels : List String) (c : ScienceSourceClient) : ConfigOutcome :=
  let pr := resolveTags plook plabels c.PropertyMap
  match pr.err with
  | some e => ⟨⟨pr.map, c.ItemMap⟩, pr.attempted, [], some e⟩
  | none =>
    let ir := resolveTags ilook ilabels c.ItemMap
    ⟨⟨pr.map, ir.map⟩, pr.attempted, ir.attempted, ir.err⟩

/-- `GetPropertyAndItemConfigurationFromServer` from the source: the label
lists are `getValuesForTags "property"` and `getValuesForTags "item"`. -/
def GetPropertyAndItemConfigurationFromServer
    (plook ilook : String → Except String String) (c : ScienceSourceClient) :
    ConfigOutcome :=
  getConfigFromLabels plook ilook
    (getValuesForTags "property") (getValuesForTags "item") c

theorem mapLookup_mapInsert_other (m : List (String × String)) (k v k' : String)
    (h : k' ≠ k) : mapLookup (mapInsert m k v) k' = mapLookup m k' := by
  induction m with
  | nil => simp [mapInsert, mapLookup, h.symm]
  | cons p rest ih =>
    obtain ⟨pk, pv⟩ := p
    by_cases hpk : pk = k
    · subst hpk
      simp [mapInsert, mapLookup, h.symm]
    · simp [mapInsert, mapLookup, hpk, ih]

/-- Keys of a map. -/
def mapKeys (m : List (String × String)) : List String := m.map Prod.fst

theorem mapInsert_same (rest : List (String × String)) (k pv v : String) :
    mapInsert ((k, pv) :: rest) k v = (k, v) :: rest := by
  simp [mapInsert]

theorem mapInsert_other (rest : List (String × String)) (pk pv k v : String)
    (hpk : pk ≠ k) :
    mapInsert ((pk, pv) :: rest) k v = (pk, pv) :: mapInsert rest k v := by
  simp [mapInsert, hpk]

theorem mem_mapKeys_mapInsert (m : List (String × String)) (k v x : String)
    (h : x ∈ mapKeys (mapInsert m k v)) : x = k ∨ x ∈ mapKeys m := by
  induction m with
  | nil => simpa [mapInsert, mapKeys] using h
  | cons p rest ih =>
    obtain ⟨pk, pv⟩ := p
    by_cases hpk : pk = k
    · subst hpk
      rw [mapInsert_same] at h
      simpa [mapKeys] using h
    · rw [mapInsert_other rest pk pv k v hpk] at h
      simp only [mapKeys, List.map_cons, List.mem_cons] at h ⊢
      rcases h with rfl | h
      · exact Or.inr (Or.inl rfl)
      · rcases ih h with rfl | h'
        · exact Or.inl rfl
        · exact Or.inr (Or.inr h')

theorem mapKeys_mapInsert_nodup (m : List (String × String)) (k v : String)
    (h : (mapKeys m).Nodup) : (mapKeys (mapInsert m k v)).Nodup := by
  induction m with
  | nil => simp [mapInsert, mapKeys]
  | cons p rest ih =>
    obtain ⟨pk, pv⟩ := p
    simp only [mapKeys, List.map_cons, List.nodup_cons] at h
    by_cases hpk : pk = k
    · subst hpk
      rw [mapInsert_same]
      simp only [mapKeys, List.map_cons, List.nodup_cons]
      exact h
    · have tail := ih h.2
      have hnotin : pk ∉ mapKeys (mapInsert rest k v) := by
        intro hmem
        rcases mem_mapKeys_mapInsert rest k v pk hmem with rfl | hmem'
        · exact hpk rfl
        · exact h.1 hmem'
      rw [mapInsert_other rest pk pv k v hpk]
      simp only [mapKeys, List.map_cons, List.nodup_cons]
      exact ⟨hnotin, tail⟩

theorem mem_mapKeys_mapInsert_self (m : List (String × String)) (k v : String) :
    k ∈ mapKeys (mapInsert m k v) := by
  induction m with
  | nil => simp [mapInsert, mapKeys]
  | cons p rest ih =>
    obtain ⟨pk, pv⟩ := p
    by_cases hpk : pk = k
    · subst hpk
      rw [mapInsert_same]
      simp [mapKeys]
    · rw [mapInsert_other rest pk pv k v hpk]
      simp only [mapKeys, List.map_cons, List.mem_cons]
      exact Or.inr ih

theorem mem_mapKeys_mapInsert_mono (m : List (String × String)) (k v x : String)
    (h : x ∈ mapKeys m) : x ∈ mapKeys (mapInsert m k v) := by
  induction m with
  | nil => simp [mapKeys] at h
  | cons p rest ih =>
    obtain ⟨pk, pv⟩ := p
    simp only [mapKeys, List.map_cons, List.mem_cons] at h
    by_cases hpk : pk = k
    · subst hpk
      rw [mapInsert_same]
      simp only [mapKeys, List.map_cons, List.mem_cons]
      exact h
    · rw [mapInsert_other rest pk pv k v hpk]
      simp only [mapKeys, List.map_cons, List.mem_cons]
      rcases h with rfl | h
      · exact Or.inl rfl
      · exact Or.inr (ih h)

theorem resolveTags_cons_ok (lookup : String → Except String String)
    (l : String) (ls : List String) (m : List (String × String)) (v : String)
    (h : lookup l = .ok v) :
    resolveTags lookup (l :: ls) m =
      ⟨(resolveTags lookup ls (mapInsert m l v)).map,
       l :: (resolveTags lookup ls (mapInsert m l v)).attempted,
       (resolveTags lookup ls (mapInsert m l v)).err⟩ := by
  simp [resolveTags, h]

theorem resolveTags_cons_err (lookup : String → Except String String)
    (l : String) (ls : List String) (m : List (String × String)) (e : String)
    (h : lookup l = .error e) :
    resolveTags lookup (l :: ls) m = ⟨m, [l], some e⟩ := by
  simp [resolveTags, h]

theorem resolveTags_all_ok (lookup : String → Except String String)
    (labels : List String) :
    ∀ m, (∀ x ∈ labels, ∃ v, lookup x = .ok v) →
    (resolveTags lookup labels m).err = none ∧
    (resolveTags lookup labels m).attempted = labels := by
  induction labels with
  | nil => exact fun m _ => ⟨rfl, rfl⟩
  | cons l ls ih =>
    intro m h
    obtain ⟨v, hv⟩ := h l (List.mem_cons_self l ls)
    rw [resolveTags_cons_ok lookup l ls m v hv]
    obtain ⟨he, ha⟩ := ih (mapInsert m l v) (fun x hx => h x (List.mem_cons_of_mem l hx))
    exact ⟨he, by rw [ha]⟩

theorem resolveTags_fail (lookup : String → Except String String)
    (pre : List String) :
    ∀ (m : List (String × String)) (l e : String) (post : List String),
    (∀ x ∈ pre, ∃ v, lookup x = .ok v) → lookup l = .error e →
    (resolveTags lookup (pre ++ l :: post) m).err = some e ∧
    (resolveTags lookup (pre ++ l :: post) m).attempted = pre ++ [l] := by
  induction pre with
  | nil =>
    intro m l e post _ hl
    rw [List.nil_append, resolveTags_cons_err lookup l post m e hl]
    exact ⟨rfl, rfl⟩
  | cons x xs ih =>
    intro m l e post h hl
    obtain ⟨v, hv⟩ := h x (List.mem_cons_self x xs)
    rw [List.cons_append, resolveTags_cons_ok lookup x (xs ++ l :: post) m v hv]
    obtain ⟨he, ha⟩ :=
      ih (mapInsert m x v) l e post (fun y hy => h y (List.mem_cons_of_mem x hy)) hl
    exact ⟨he, by rw [ha, List.cons_append]⟩

theorem resolveTags_fail_frame (lookup : String → Except String String)
    (pre : List String) :
    ∀ (m : List (String × String)) (l e : String) (post : List String) (k : String),
    (∀ x ∈ pre, ∃ v, lookup x = .ok v) → lookup l = .error e → k ∉ pre →
    mapLookup (resolveTags lookup (pre ++ l :: post) m).map k = mapLookup m k := by
  induction pre with
  | nil =>
    intro m l e post k _ hl _
    rw [List.nil_append, resolveTags_cons_err lookup l post m e hl]
  | cons x xs ih =>
    intro m l e post k h hl hk
    obtain ⟨v, hv⟩ := h x (List.mem_cons_self x xs)
    rw [List.cons_append, resolveTags_cons_ok lookup x (xs ++ l :: post) m v hv]
    have hkxs : k ∉ xs := fun hmem => hk (List.mem_cons_of_mem x hmem)
    have hkx : k ≠ x := fun heq => hk (heq ▸ List.mem_cons_self x xs)
    rw [ih (mapInsert m x v) l e post k
          (fun y hy => h y (List.mem_cons_of_mem x hy)) hl hkxs]
    exact mapLookup_mapInsert_other m x v k hkx

theorem resolveTags_frame (lookup : String → Except String String)
    (labels : List String) :
    ∀ (m : List (String × String)) (k : String), k ∉ labels →
    mapLookup (resolveTags lookup labels m).map k = mapLookup m k := by
  induction labels with
  | nil => intro m k _; rfl
  | cons l ls ih =>
    intro m k hk
    have hkls : k ∉ ls := fun hmem => hk (List.mem_cons_of_mem l hmem)
    have hkl : k ≠ l := fun heq => hk (heq ▸ List.mem_cons_self l ls)
    cases hl : lookup l with
    | error e => rw [resolveTags_cons_err lookup l ls m e hl]
    | ok v =>
      rw [resolveTags_cons_ok lookup l ls m v hl]
      rw [ih (mapInsert m l v) k hkls]
      exact mapLookup_mapInsert_other m l v k hkl

theorem resolveTags_keys_nodup (lookup : String → Except String String)
    (labels : List String) :
    ∀ m, (mapKeys m).Nodup → (mapKeys (resolveTags lookup labels m).map).Nodup := by
  induction labels with
  | nil => exact fun m h => h
  | cons l ls ih =>
    intro m h
    cases hl : lookup l with
    | error e => rw [resolveTags_cons_err lookup l ls m e hl]; exact h
    | ok v =>
      rw [resolveTags_cons_ok lookup l ls m v hl]
      exact ih (mapInsert m l v) (mapKeys_mapInsert_nodup m l v h)

theorem resolveTags_keys_mono (lookup : String → Except String String)
    (labels : List String) :
    ∀ m x, x ∈ mapKeys m → x ∈ mapKeys (resolveTags lookup labels m).map := by
  induction labels with
  | nil => exact fun m x h => h
  | cons l ls ih =>
    intro m x h
    cases hl : lookup l with
    | error e => rw [resolveTags_cons_err lookup l ls m e hl]; exact h
    | ok v =>
      rw [resolveTags_cons_ok lookup l ls m v hl]
      exact ih (mapInsert m l v) x (mem_mapKeys_mapInsert_mono m l v x h)

theorem resolveTags_mem_keys (lookup : String → Except String String)
    (labels : List String) :
    ∀ m, (resolveTags lookup labels m).err = none →
    ∀ l ∈ labels, l ∈ mapKeys (resolveTags lookup labels m).map := by
  induction labels with
  | nil => intro m _ l hl; simp at hl
  | cons x xs ih =>
    intro m herr l hl
    cases hx : lookup x with
    | error e =>
      rw [resolveTags_cons_err lookup x xs m e hx] at herr
      exact absurd herr (by simp)
    | ok v =>
      rw [resolveTags_cons_ok lookup x xs m v hx] at herr ⊢
      rcases List.mem_cons.mp hl with rfl | hl'
      · exact resolveTags_keys_mono lookup xs (mapInsert m l v) l
          (mem_mapKeys_mapInsert_self m l v)
      · exact ih (mapInsert m x v) herr l hl'

theorem getConfigFromLabels_perr_some (plook ilook : String → Except String String)
    (plabels ilabels : List String) (c : ScienceSourceClient) (e : String)
    (h : (resolveTags plook plabels c.PropertyMap).err = some e) :
    getConfigFromLabels plook ilook plabels ilabels c =
      ⟨⟨(resolveTags plook plabels c.PropertyMap).map, c.ItemMap⟩,
       (resolveTags plook plabels c.PropertyMap).attempted, [], some e⟩ := by
  simp [getConfigFromLabels, h]

theorem getConfigFromLabels_perr_none (plook ilook : String → Except String String)
    (plabels ilabels : List String) (c : ScienceSourceClient)
    (h : (resolveTags plook plabels c.PropertyMap).err = none) :
    getConfigFromLabels plook ilook plabels ilabels c =
      ⟨⟨(resolveTags plook plabels c.PropertyMap).map,
        (resolveTags ilook ilabels c.ItemMap).map⟩,
       (resolveTags plook plabels c.PropertyMap).attempted,
       (resolveTags ilook ilabels c.ItemMap).attempted,
       (resolveTags ilook ilabels c.ItemMap).err⟩ := by
  simp [getConfigFromLabels, h]

/-- **C2.** Fail-fast resolution, for every sequence of labels: if the
lookup of the Nth label fails (all before it succeeding), the call returns
exactly the error that lookup produced — identifying the failing label —
the labels actually sent to the server are precisely the first N (none
after the Nth is attempted), and when the failure is a property-label
lookup, no item-label lookup is attempted at all. -/
theorem getConfig_failfast :
    (∀ (plook ilook : String → Except String String) (c : ScienceSourceClient)
      (pre post ilabels : List String) (l e : String),
      (∀ x ∈ pre, ∃ v, plook x = .ok v) → plook l = .error e →
      (getConfigFromLabels plook ilook (pre ++ l :: post) ilabels c).err = some e ∧
      (getConfigFromLabels plook ilook (pre ++ l :: post) ilabels c).propAttempted
        = pre ++ [l] ∧
      (getConfigFromLabels plook ilook (pre ++ l :: post) ilabels c).itemAttempted
        = []) ∧
    (∀ (plook ilook : String → Except String String) (c : ScienceSourceClient)
      (plabels pre post : List String) (l e : String),
      (∀ x ∈ plabels, ∃ v, plook x = .ok v) →
      (∀ x ∈ pre, ∃ v, ilook x = .ok v) → ilook l = .error e →
      (getConfigFromLabels plook ilook plabels (pre ++ l :: post) c).err = some e ∧
      (getConfigFromLabels plook ilook plabels (pre ++ l :: post) c).propAttempted
        = plabels ∧
      (getConfigFromLabels plook ilook plabels (pre ++ l :: post) c).itemAttempted
        = pre ++ [l]) := by
  constructor
  · intro plook ilook c pre post ilabels l e hpre hl
    obtain ⟨he, ha⟩ := resolveTags_fail plook pre c.PropertyMap l e post hpre hl
    rw [getConfigFromLabels_perr_some plook ilook (pre ++ l :: post) ilabels c e he]
    exact ⟨rfl, ha, rfl⟩
  · intro plook ilook c plabels pre post l e hprop hpre hl
    obtain ⟨hpe, hpa⟩ := resolveTags_all_ok plook plabels c.PropertyMap hprop
    obtain ⟨hie, hia⟩ := resolveTags_fail ilook pre c.ItemMap l e post hpre hl
    rw [getConfigFromLabels_perr_none plook ilook plabels (pre ++ l :: post) c hpe]
    exact ⟨hie, hpa, hia⟩

/-- Property-label oracle that fails on the label "beta" and resolves every
other label to "P1". -/
def plookFailBeta : String → Except String String :=
  fun l => if l = "beta" then .error "lookup failed: beta" else .ok "P1"

/-- Property-label oracle resolving every label. -/
def plookAllOk : String → Except String String := fun l => .ok ("P-" ++ l)

/-- Item-label oracle resolving every label. -/
def ilookAllOk : String → Except String String := fun l => .ok ("Q-" ++ l)

/-- Property-label oracle failing on every label. -/
def plookAllFail : String → Except String String :=
  fun l => .error ("no such label: " ++ l)

/-- Property-label oracle resolving only "term found". -/
def plookOnlyTermFound : String → Except String String :=
  fun l => if l = "term found" then .ok "P100" else .error ("no such label: " ++ l)

/-- Witness for C2: with labels alpha, beta, gamma and a lookup failing on
beta, the call returns that lookup's error, attempts exactly alpha and beta,
and never performs an item lookup. -/
theorem getConfig_failfast_witness :
    (getConfigFromLabels plookFailBeta ilookAllOk (["alpha"] ++ "beta" :: ["gamma"])
      ["item a"] NewScienceSourceClient).err = some "lookup failed: beta" ∧
    (getConfigFromLabels plookFailBeta ilookAllOk (["alpha"] ++ "beta" :: ["gamma"])
      ["item a"] NewScienceSourceClient).propAttempted = ["alpha"] ++ ["beta"] ∧
    (getConfigFromLabels plookFailBeta ilookAllOk (["alpha"] ++ "beta" :: ["gamma"])
      ["item a"] NewScienceSourceClient).itemAttempted = [] := by
  refine getConfig_failfast.1 plookFailBeta ilookAllOk NewScienceSourceClient
    ["alpha"] ["gamma"] ["item a"] "beta" "lookup failed: beta" ?_ rfl
  intro x hx
  rcases List.mem_singleton.mp hx with rfl
  exact ⟨"P1", rfl⟩

/-- **C10.** The item map is never touched before the whole property pass
has succeeded: when the property-label loop fails, the returned client's
`ItemMap` is exactly the one before the call and no item label was looked
up. -/
theorem getConfig_property_fail_itemmap_frame
    (plook ilook : String → Except String String) (c : ScienceSourceClient)
    (e : String)
    (h : (resolveTags plook (getValuesForTags "property") c.PropertyMap).err = some e) :
    (GetPropertyAndItemConfigurationFromServer plook ilook c).client.ItemMap
      = c.ItemMap ∧
    (GetPropertyAndItemConfigurationFromServer plook ilook c).itemAttempted = [] := by
  unfold GetPropertyAndItemConfigurationFromServer
  rw [getConfigFromLabels_perr_some plook ilook _ _ c e h]
  exact ⟨rfl, rfl⟩

set_option maxRecDepth 8000 in
/-- Witness for C10: a lookup oracle that fails on every property label
leaves the fresh client's `ItemMap` empty and attempts no item lookup. -/
theorem getConfig_property_fail_itemmap_frame_witness :
    (GetPropertyAndItemConfigurationFromServer plookAllFail ilookAllOk
      NewScienceSourceClient).client.ItemMap = NewScienceSourceClient.ItemMap ∧
    (GetPropertyAndItemConfigurationFromServer plookAllFail ilookAllOk
      NewScienceSourceClient).itemAttempted = [] :=
  getConfig_property_fail_itemmap_frame plookAllFail ilookAllOk
    NewScienceSourceClient "no such label: term found" (by decide)

set_option maxRecDepth 8000 in
/-- **C5.** On success every distinct property label carries exactly one
entry in `PropertyMap` and every distinct item label exactly one entry in
`ItemMap` (for any starting maps with duplicate-free keys, e.g. the empty
maps of `NewScienceSourceClient`). -/
theorem getConfig_success_unique (plook ilook : String → Except String String)
    (c : ScienceSourceClient)
    (hp : (mapKeys c.PropertyMap).Nodup) (hi : (mapKeys c.ItemMap).Nodup)
    (hok : (GetPropertyAndItemConfigurationFromServer plook ilook c).err = none) :
    (∀ l ∈ getValuesForTags "property",
      (mapKeys (GetPropertyAndItemConfigurationFromServer plook ilook
        c).client.PropertyMap).count l = 1) ∧
    (∀ l ∈ getValuesForTags "item",
      (mapKeys (GetPropertyAndItemConfigurationFromServer plook ilook
        c).client.ItemMap).count l = 1) := by
  unfold GetPropertyAndItemConfigurationFromServer at hok ⊢
  cases hpr : (resolveTags plook (getValuesForTags "property") c.PropertyMap).err with
  | some e =>
    rw [getConfigFromLabels_perr_some plook ilook _ _ c e hpr] at hok
    exact absurd hok (by simp)
  | none =>
    rw [getConfigFromLabels_perr_none plook ilook _ _ c hpr] at hok ⊢
    constructor
    · intro l hl
      exact List.count_eq_one_of_mem
        (resolveTags_keys_nodup plook (getValuesForTags "property") c.PropertyMap hp)
        (resolveTags_mem_keys plook (getValuesForTags "property") c.PropertyMap hpr l hl)
    · intro l hl
      exact List.count_eq_one_of_mem
        (resolveTags_keys_nodup ilook (getValuesForTags "item") c.ItemMap hi)
        (resolveTags_mem_keys ilook (getValuesForTags "item") c.ItemMap hok l hl)

set_option maxRecDepth 24000 in
/-- Witness for C5: with oracles resolving every label, the property label
"term found" and the item label "annotation" each end up with exactly one
entry in the fresh client's maps. -/
theorem getConfig_success_unique_witness :
    (mapKeys (GetPropertyAndItemConfigurationFromServer plookAllOk ilookAllOk
      NewScienceSourceClient).client.PropertyMap).count "term found" = 1 ∧
    (mapKeys (GetPropertyAndItemConfigurationFromServer plookAllOk ilookAllOk
      NewScienceSourceClient).client.ItemMap).count "annotation" = 1 :=
  ⟨(getConfig_success_unique plookAllOk ilookAllOk NewScienceSourceClient
      (by decide) (by decide) (by decide)).1 "term found" (by decide),
   (getConfig_success_unique plookAllOk ilookAllOk NewScienceSourceClient
      (by decide) (by decide) (by decide)).2 "annotation" (by decide)⟩

set_option maxRecDepth 8000 in
/-- **C3, counterexample.** With a fresh client and a remote oracle that
resolves the first property label "term found" and fails on the next one,
the call returns an error, yet `PropertyMap` is NOT as it was before the
call: the loop had already stored the first resolved entry in place. -/
theorem getConfig_error_mutates :
    (GetPropertyAndItemConfigurationFromServer plookOnlyTermFound ilookAllOk
      NewScienceSourceClient).err ≠ none ∧
    (GetPropertyAndItemConfigurationFromServer plookOnlyTermFound ilookAllOk
      NewScienceSourceClient).client.PropertyMap
      ≠ NewScienceSourceClient.PropertyMap := by
  decide

theorem mapLookup_mapInsert_self (m : List (String × String)) (k v : String) :
    mapLookup (mapInsert m k v) k = some v := by
  induction m with
  | nil => simp [mapInsert, mapLookup]
  | cons p rest ih =>
    obtain ⟨pk, pv⟩ := p
    by_cases hpk : pk = k
    · subst hpk
      rw [mapInsert_same]
      simp [mapLookup]
    · rw [mapInsert_other rest pk pv k v hpk]
      simp only [mapLookup, if_neg hpk]
      exact ih

theorem resolveTags_resolved_prefix (lookup : String → Except String String)
    (pre : List String) :
    ∀ (m : List (String × String)) (l e : String) (post : List String) (x v : String),
    (∀ y ∈ pre, ∃ w, lookup y = .ok w) → lookup l = .error e →
    x ∈ pre → lookup x = .ok v →
    mapLookup (resolveTags lookup (pre ++ l :: post) m).map x = some v := by
  induction pre with
  | nil => intro m l e post x v _ _ hx _; simp at hx
  | cons y ys ih =>
    intro m l e post x v h hl hx hxv
    obtain ⟨vy, hvy⟩ := h y (List.mem_cons_self y ys)
    rw [List.cons_append, resolveTags_cons_ok lookup y (ys ++ l :: post) m vy hvy]
    by_cases hxys : x ∈ ys
    · exact ih (mapInsert m y vy) l e post x v
        (fun z hz => h z (List.mem_cons_of_mem y hz)) hl hxys hxv
    · have hxy : x = y := by
        rcases List.mem_cons.mp hx with rfl | h'
        · rfl
        · exact absurd h' hxys
      subst hxy
      have hv : vy = v := by
        rw [hvy] at hxv
        exact Except.ok.inj hxv
      rw [resolveTags_fail_frame lookup ys (mapInsert m x vy) l e post x
            (fun z hz => h z (List.mem_cons_of_mem x hz)) hl hxys,
          mapLookup_mapInsert_self m x vy]
      exact congrArg some hv

theorem resolveTags_resolved_all (lookup : String → Except String String)
    (labels : List String) :
    ∀ (m : List (String × String)) (x v : String),
    (∀ y ∈ labels, ∃ w, lookup y = .ok w) → x ∈ labels → lookup x = .ok v →
    mapLookup (resolveTags lookup labels m).map x = some v := by
  induction labels with
  | nil => intro m x v _ hx _; simp at hx
  | cons y ys ih =>
    intro m x v h hx hxv
    obtain ⟨vy, hvy⟩ := h y (List.mem_cons_self y ys)
    rw [resolveTags_cons_ok lookup y ys m vy hvy]
    by_cases hxys : x ∈ ys
    · exact ih (mapInsert m y vy) x v
        (fun z hz => h z (List.mem_cons_of_mem y hz)) hxys hxv
    · have hxy : x = y := by
        rcases List.mem_cons.mp hx with rfl | h'
        · rfl
        · exact absurd h' hxys
      subst hxy
      have hv : vy = v := by
        rw [hvy] at hxv
        exact Except.ok.inj hxv
      rw [resolveTags_frame lookup ys (mapInsert m x vy) x hxys,
          mapLookup_mapInsert_self m x vy]
      exact congrArg some hv

/-- **C3 (amended).** When `GetPropertyAndItemConfigurationFromServer`
returns a non-nil error no result is handed back, but the client's maps are
mutated in place up to the failure: each label resolved before the failing
one keeps its freshly resolved entry in the map its loop fills, while every
other key of `PropertyMap` and `ItemMap` reads as before the call; in
particular a failure during the property pass leaves `ItemMap` exactly as
it was. -/
theorem getConfig_error_partial_maps :
    (∀ (plook ilook : String → Except String String) (c : ScienceSourceClient)
      (pre post ilabels : List String) (l e : String),
      (∀ x ∈ pre, ∃ v, plook x = .ok v) → plook l = .error e →
      (getConfigFromLabels plook ilook (pre ++ l :: post) ilabels c).err = some e ∧
      (getConfigFromLabels plook ilook (pre ++ l :: post) ilabels c).client.ItemMap
        = c.ItemMap ∧
      (∀ k, k ∉ pre →
        mapLookup (getConfigFromLabels plook ilook (pre ++ l :: post) ilabels
          c).client.PropertyMap k = mapLookup c.PropertyMap k) ∧
      (∀ x v, x ∈ pre → plook x = .ok v →
        mapLookup (getConfigFromLabels plook ilook (pre ++ l :: post) ilabels
          c).client.PropertyMap x = some v)) ∧
    (∀ (plook ilook : String → Except String String) (c : ScienceSourceClient)
      (plabels pre post : List String) (l e : String),
      (∀ x ∈ plabels, ∃ v, plook x = .ok v) →
      (∀ x ∈ pre, ∃ v, ilook x = .ok v) → ilook l = .error e →
      (getConfigFromLabels plook ilook plabels (pre ++ l :: post) c).err = some e ∧
      (∀ k, k ∉ plabels →
        mapLookup (getConfigFromLabels plook ilook plabels (pre ++ l :: post)
          c).client.PropertyMap k = mapLookup c.PropertyMap k) ∧
      (∀ x v, x ∈ plabels → plook x = .ok v →
        mapLookup (getConfigFromLabels plook ilook plabels (pre ++ l :: post)
          c).client.PropertyMap x = some v) ∧
      (∀ k, k ∉ pre →
        mapLookup (getConfigFromLabels plook ilook plabels (pre ++ l :: post)
          c).client.ItemMap k = mapLookup c.ItemMap k) ∧
      (∀ x v, x ∈ pre → ilook x = .ok v →
        mapLookup (getConfigFromLabels plook ilook plabels (pre ++ l :: post)
          c).client.ItemMap x = some v)) := by
  constructor
  · intro plook ilook c pre post ilabels l e hpre hl
    obtain ⟨he, _⟩ := resolveTags_fail plook pre c.PropertyMap l e post hpre hl
    rw [getConfigFromLabels_perr_some plook ilook (pre ++ l :: post) ilabels c e he]
    exact ⟨rfl, rfl,
      fun k hk => resolveTags_fail_frame plook pre c.PropertyMap l e post k hpre hl hk,
      fun x v hx hxv =>
        resolveTags_resolved_prefix plook pre c.PropertyMap l e post x v hpre hl hx hxv⟩
  · intro plook ilook c plabels pre post l e hprop hpre hl
    obtain ⟨hpe, _⟩ := resolveTags_all_ok plook plabels c.PropertyMap hprop
    obtain ⟨hie, _⟩ := resolveTags_fail ilook pre c.ItemMap l e post hpre hl
    rw [getConfigFromLabels_perr_none plook ilook plabels (pre ++ l :: post) c hpe]
    refine ⟨hie, ?_, ?_, ?_, ?_⟩
    · intro k hk
      exact resolveTags_frame plook plabels c.PropertyMap k hk
    · intro x v hx hxv
      exact resolveTags_resolved_all plook plabels c.PropertyMap x v hprop hx hxv
    · intro k hk
      exact resolveTags_fail_frame ilook pre c.ItemMap l e post k hpre hl hk
    · intro x v hx hxv
      exact resolveTags_resolved_prefix ilook pre c.ItemMap l e post x v hpre hl hx hxv

/-- Witness for the amended C3: failure on "beta" after "alpha" resolved
returns the error, leaves `ItemMap` untouched, keeps the freshly resolved
entry for "alpha" in `PropertyMap`, and leaves every other key (such as
"delta") reading as before. -/
theorem getConfig_error_partial_maps_witness :
    (getConfigFromLabels plookFailBeta ilookAllOk (["alpha"] ++ "beta" :: ["gamma"])
      ["item a"] NewScienceSourceClient).err = some "lookup failed: beta" ∧
    (getConfigFromLabels plookFailBeta ilookAllOk (["alpha"] ++ "beta" :: ["gamma"])
      ["item a"] NewScienceSourceClient).client.ItemMap
      = NewScienceSourceClient.ItemMap ∧
    mapLookup (getConfigFromLabels plookFailBeta ilookAllOk
      (["alpha"] ++ "beta" :: ["gamma"]) ["item a"]
      NewScienceSourceClient).client.PropertyMap "delta"
      = mapLookup NewScienceSourceClient.PropertyMap "delta" ∧
    mapLookup (getConfigFromLabels plookFailBeta ilookAllOk
      (["alpha"] ++ "beta" :: ["gamma"]) ["item a"]
      NewScienceSourceClient).client.PropertyMap "alpha" = some "P1" := by
  have h := getConfig_error_partial_maps.1 plookFailBeta ilookAllOk
    NewScienceSourceClient ["alpha"] ["gamma"] ["item a"] "beta" "lookup failed: beta"
    (by intro x hx; rcases List.mem_singleton.mp hx with rfl; exact ⟨"P1", rfl⟩) rfl
  exact ⟨h.1, h.2.1, h.2.2.1 "delta" (by decide), h.2.2.2 "alpha" "P1" (by decide) rfl⟩

/-! ## Upload: `UploadPaper` -/

/-- `UploadPaper` from the source: read the local HTML file
(`ioutil.ReadFile`), create the remote article under the article's
`ScienceSourceArticleTitle` (`wikiDataClient.CreateArticle`), and on success
record the returned page id in `article.PageID`.  File read and remote
create are oracles; the result carries the article the pointer refers to
after the call and the returned `error`. -/
def UploadPaper (readFile : String → Except String String)
    (createArticle : String → String → Except String Int)
    (article : ScienceSourceArticle) (htmlFileName : String) :
    ScienceSourceArticle × Option String :=
  match readFile htmlFileName with
  | .error err => (article, some err)
  | .ok data =>
    match createArticle article.ScienceSourceArticleTitle data with
    | .error upload_error => (article, some upload_error)
    | .ok page_id => ({ article with PageID := page_id }, none)

/-- **C7.** On success `UploadPaper` returns `nil` and the article with
`PageID` set to exactly the page id `CreateArticle` returned, every other
field untouched; on a local read failure or a remote create failure it
returns the underlying error unchanged and the article exactly as it was. -/
theorem uploadPaper_spec (readFile : String → Except String String)
    (createArticle : String → String → Except String Int)
    (article : ScienceSourceArticle) (htmlFileName : String) :
    (∀ data page_id, readFile htmlFileName = .ok data →
      createArticle article.ScienceSourceArticleTitle data = .ok page_id →
      UploadPaper readFile createArticle article htmlFileName =
        ({ article with PageID := page_id }, none)) ∧
    (∀ e, readFile htmlFileName = .error e →
      UploadPaper readFile createArticle article htmlFileName = (article, some e)) ∧
    (∀ data e, readFile htmlFileName = .ok data →
      createArticle article.ScienceSourceArticleTitle data = .error e →
      UploadPaper readFile createArticle article htmlFileName = (article, some e)) := by
  refine ⟨?_, ?_, ?_⟩
  · intro data page_id hr hc
    simp [UploadPaper, hr, hc]
  · intro e hr
    simp [UploadPaper, hr]
  · intro data e hr hc
    simp [UploadPaper, hr, hc]

/-- File oracle holding one HTML document under "paper.html". -/
def readFileOne : String → Except String String :=
  fun name => if name = "paper.html" then .ok "[html]" else .error "open failed"

/-- Remote create oracle assigning page id 99 to every article. -/
def createArticle99 : String → String → Except String Int :=
  fun _ _ => .ok 99

/-- Remote create oracle failing with an auth error. -/
def createArticleAuthFail : String → String → Except String Int :=
  fun _ _ => .error "auth failed"

/-- Witness for C7: success records page id 99 and returns nil; a missing
file and a failing remote create each return their error with the article
untouched. -/
theorem uploadPaper_spec_witness :
    UploadPaper readFileOne createArticle99 sampleArticle "paper.html" =
      ({ sampleArticle with PageID := 99 }, none) ∧
    UploadPaper readFileOne createArticle99 sampleArticle "missing.html" =
      (sampleArticle, some "open failed") ∧
    UploadPaper readFileOne createArticleAuthFail sampleArticle "paper.html" =
      (sampleArticle, some "auth failed") :=
  ⟨(uploadPaper_spec readFileOne createArticle99 sampleArticle "paper.html").1
      "[html]" 99 rfl rfl,
   (uploadPaper_spec readFileOne createArticle99 sampleArticle "missing.html").2.1
      "open failed" rfl,
   (uploadPaper_spec readFileOne createArticleAuthFail sampleArticle "paper.html").2.2
      "[html]" "auth failed" rfl rfl⟩

/-! ## Anchor-chain linkage (the Linked state)

`sciencesource.go` declares the chain reference fields
(`PrecedingAnchorPoint`, `FollowingAnchorPoint` on each anchor point, the
trailing `FollowingAnchorPoint` on the article) but the loop that fills
them after all annotations are uploaded lives outside this file, so it is
modelled from the spec. -/

/-- Modelled from the spec: linking one anchor point of the chain.  The
code that fills the chain references is not in `sciencesource.go` (the
repository slice holds only the record declarations), so this follows the
spec: each AnchorPoint's predecessor reference receives the remote item id
of the previous AnchorPoint in document order — or the article's terminus
marker for the first — and its successor reference receives the remote item
id of the next — or the terminus marker for the last. -/
def linkOne (terminus : String) (aps : List ScienceSourceAnchorPoint) (i : Nat) :
    ScienceSourceAnchorPoint :=
  { aps.getD i default with
    PrecedingAnchorPoint :=
      if i = 0 then terminus
      else (aps.getD (i - 1) default).ScienceSourceItemID,
    FollowingAnchorPoint :=
      if i + 1 = aps.length then terminus
      else (aps.getD (i + 1) default).ScienceSourceItemID }

/-- Modelled from the spec: the move to the Linked state.  Every anchor
point of the article is wired to its neighbours' remote item ids with the
article's terminus marker at both ends of the chain, and the article's own
trailing terminus reference is closed. -/
def linkAnchorPoints (terminus : String) (a : ScienceSourceArticle) :
    ScienceSourceArticle :=
  { a with
    Annotations :=
      (List.range a.Annotations.length).map (linkOne terminus a.Annotations),
    FollowingAnchorPoint := terminus }

theorem linkAnchorPoints_getD (terminus : String) (a : ScienceSourceArticle)
    (i : Nat) (h : i < a.Annotations.length) :
    (linkAnchorPoints terminus a).Annotations.getD i default
      = linkOne terminus a.Annotations i := by
  have hlen : i < ((List.range a.Annotations.length).map
      (linkOne terminus a.Annotations)).length := by
    simpa using h
  rw [linkAnchorPoints, List.getD_eq_getElem _ _ hlen]
  simp

/-- **C6.** (modelled from the spec) In the Linked state the chain is
consistent: for every pair of adjacent AnchorPoints, A before B in document
order, A's `FollowingAnchorPoint` is B's remote item id and B's
`PrecedingAnchorPoint` is A's remote item id; the first AnchorPoint's
preceding reference and the last AnchorPoint's following reference are the
article's terminus marker. -/
theorem linked_chain_consistent (terminus : String) (a : ScienceSourceArticle) :
    (∀ i, i + 1 < a.Annotations.length →
      ((linkAnchorPoints terminus a).Annotations.getD i default).FollowingAnchorPoint
        = ((linkAnchorPoints terminus a).Annotations.getD (i + 1)
            default).ScienceSourceItemID ∧
      ((linkAnchorPoints terminus a).Annotations.getD (i + 1)
            default).PrecedingAnchorPoint
        = ((linkAnchorPoints terminus a).Annotations.getD i
            default).ScienceSourceItemID) ∧
    (0 < a.Annotations.length →
      ((linkAnchorPoints terminus a).Annotations.getD 0 default).PrecedingAnchorPoint
        = terminus ∧
      ((linkAnchorPoints terminus a).Annotations.getD (a.Annotations.length - 1)
          default).FollowingAnchorPoint = terminus) := by
  constructor
  · intro i h
    have hi : i < a.Annotations.length := Nat.lt_of_succ_lt h
    rw [linkAnchorPoints_getD terminus a i hi, linkAnchorPoints_getD terminus a (i + 1) h]
    constructor
    · simp [linkOne, Nat.ne_of_lt h]
    · simp [linkOne, Nat.succ_ne_zero]
  · intro h0
    rw [linkAnchorPoints_getD terminus a 0 h0,
        linkAnchorPoints_getD terminus a (a.Annotations.length - 1)
          (Nat.sub_lt h0 Nat.one_pos)]
    constructor
    · simp [linkOne]
    · simp only [linkOne]
      rw [if_pos (Nat.sub_add_cancel h0)]

/-- Witness for C6 at the two-anchor sample article with terminus "T0":
anchor 0 points forward to anchor 1's remote id, anchor 1 points back to
anchor 0's remote id, and the two chain ends carry the terminus marker. -/
theorem linked_chain_consistent_witness :
    (((linkAnchorPoints "T0" sampleArticle).Annotations.getD 0
        default).FollowingAnchorPoint
      = ((linkAnchorPoints "T0" sampleArticle).Annotations.getD 1
          default).ScienceSourceItemID) ∧
    (((linkAnchorPoints "T0" sampleArticle).Annotations.getD 1
        default).PrecedingAnchorPoint
      = ((linkAnchorPoints "T0" sampleArticle).Annotations.getD 0
          default).ScienceSourceItemID) ∧
    (((linkAnchorPoints "T0" sampleArticle).Annotations.getD 0
        default).PrecedingAnchorPoint = "T0") ∧
    (((linkAnchorPoints "T0" sampleArticle).Annotations.getD
        (sampleArticle.Annotations.length - 1) default).FollowingAnchorPoint = "T0") :=
  ⟨((linked_chain_consistent "T0" sampleArticle).1 0 (by decide)).1,
   ((linked_chain_consistent "T0" sampleArticle).1 0 (by decide)).2,
   ((linked_chain_consistent "T0" sampleArticle).2 (by decide)).1,
   ((linked_chain_consistent "T0" sampleArticle).2 (by decide)).2⟩
